import Mathlib

/-!
# Verification of the dukascopy-data repository

The repository has two Python source files:

* `convert.py` — `bi5_to_csv` decompresses an LZMA `.bi5` artifact and decodes
  the decompressed bytes in 20-byte big-endian records
  (`struct.unpack(">iiiii", chunk)`) into CSV rows
  `timestamp, ask, bid, ask_volume, bid_volume`.
* `downloader.py` — `download_one_hour` syncs one hour's artifact against the
  remote server (HEAD size probe, GET transfer, size-compare skip, plain
  overwrite), and `download_dukascopy_ticks` enumerates all (date, hour)
  tasks for an inclusive date range.

The embedding below models byte buffers as `List Nat` (each element a byte
value), Python `datetime` values as milliseconds since the Unix epoch in the
proleptic Gregorian calendar (`Int`), prices as exact rationals, and the
network/filesystem collaborators of the downloader as explicit parameters and
observable-state traces.
-/

namespace Dukascopy

/-! ## Decoder (`convert.py`, function `bi5_to_csv`)

The record layout, from the source: each 20-byte chunk is unpacked with
`struct.unpack(">iiiii", chunk)`, i.e. five big-endian *signed* 32-bit
integers: `ms_since_hour, ask_raw, bid_raw, ask_vol, bid_vol`. -/

/-- Big-endian unsigned 32-bit value of four byte values. -/
def readBE4 (b0 b1 b2 b3 : Nat) : Nat :=
  ((b0 * 256 + b1) * 256 + b2) * 256 + b3

/-- Reinterpretation of an unsigned 32-bit value as a two's-complement signed
integer, which is what `struct.unpack` format code `>i` produces. -/
def toSigned32 (n : Nat) : Int :=
  if n < 2 ^ 31 then (n : Int) else (n : Int) - 2 ^ 32

/-- Byte of a decompressed buffer at index `i` (0 past the end; every use is
guarded by a length check, mirroring Python slicing that never reads past the
end). -/
def byteAt (data : List Nat) (i : Nat) : Nat := data.getD i 0

/-- The big-endian unsigned 32-bit field starting at byte offset `i`. -/
def u32At (data : List Nat) (i : Nat) : Nat :=
  readBE4 (byteAt data i) (byteAt data (i + 1)) (byteAt data (i + 2)) (byteAt data (i + 3))

/-- One decoded 20-byte tick record, after `struct.unpack(">iiiii", chunk)`. -/
structure TickRecord where
  ms_since_hour : Int
  ask_raw : Int
  bid_raw : Int
  ask_vol : Int
  bid_vol : Int
deriving DecidableEq

/-- `struct.unpack(">iiiii", data[i:i+20])`: five big-endian signed 32-bit
fields read at byte offsets `i, i+4, i+8, i+12, i+16`. -/
def recordAt (data : List Nat) (i : Nat) : TickRecord :=
  { ms_since_hour := toSigned32 (u32At data i)
    ask_raw := toSigned32 (u32At data (i + 4))
    bid_raw := toSigned32 (u32At data (i + 8))
    ask_vol := toSigned32 (u32At data (i + 12))
    bid_vol := toSigned32 (u32At data (i + 16)) }

/-- The record-parsing loop of `bi5_to_csv`:
`for i in range(0, len(decompressed_data), 20)` takes the 20-byte chunk at `i`
and `break`s as soon as the chunk is shorter than 20 bytes.  Equivalently:
while at least 20 bytes remain, unpack the first 20 bytes with
`struct.unpack(">iiiii", ...)` and continue on the rest; a shorter final
chunk produces nothing. -/
def parseRecords : List Nat → List TickRecord
  | b0 :: b1 :: b2 :: b3 :: b4 :: b5 :: b6 :: b7 :: b8 :: b9 ::
    b10 :: b11 :: b12 :: b13 :: b14 :: b15 :: b16 :: b17 :: b18 :: b19 :: rest =>
      { ms_since_hour := toSigned32 (readBE4 b0 b1 b2 b3)
        ask_raw := toSigned32 (readBE4 b4 b5 b6 b7)
        bid_raw := toSigned32 (readBE4 b8 b9 b10 b11)
        ask_vol := toSigned32 (readBE4 b12 b13 b14 b15)
        bid_vol := toSigned32 (readBE4 b16 b17 b18 b19) } :: parseRecords rest
  | _ => []

/-- One output CSV row of `bi5_to_csv`.  The timestamp is held as milliseconds
since the Unix epoch (`base_datetime + timedelta(milliseconds=ms_since_hour)`),
prices as exact rationals (`ask_raw / 100000.0`). -/
structure Row where
  timestamp_ms : Int
  ask : ℚ
  bid : ℚ
  ask_volume : Int
  bid_volume : Int
deriving DecidableEq

/-- The per-record row construction inside the loop of `bi5_to_csv`:
`tick_time = base_datetime + timedelta(milliseconds=ms_since_hour)`,
`ask_price = ask_raw / 100000.0`, `bid_price = bid_raw / 100000.0`,
volumes passed through. -/
def recordToRow (anchor : Int) (r : TickRecord) : Row :=
  { timestamp_ms := anchor + r.ms_since_hour
    ask := (r.ask_raw : ℚ) / 100000
    bid := (r.bid_raw : ℚ) / 100000
    ask_volume := r.ask_vol
    bid_volume := r.bid_vol }

/-- The full row stream produced by `bi5_to_csv` from a decompressed buffer,
given the hour anchor in epoch milliseconds. -/
def decodeTicks (anchor : Int) (data : List Nat) : List Row :=
  (parseRecords data).map (recordToRow anchor)

/-! ### Calendar arithmetic

`bi5_to_csv` builds the hour anchor with
`datetime.strptime(date_str, "%Y-%m-%d").replace(hour=hour, ...)`.  Python's
`datetime` is the proleptic Gregorian calendar; we map a calendar datetime to
milliseconds since 1970-01-01T00:00:00 via the standard days-from-civil
formula. -/

/-- Days since 1970-01-01 of a proleptic-Gregorian calendar date. -/
def daysFromCivil (y m d : Int) : Int :=
  let yy := if m ≤ 2 then y - 1 else y
  let era := (if 0 ≤ yy then yy else yy - 399) / 400
  let yoe := yy - era * 400
  let mp := (m + 9) % 12
  let doy := (153 * mp + 2) / 5 + d - 1
  let doe := yoe * 365 + yoe / 4 - yoe / 100 + doy
  era * 146097 + doe - 719468

/-- Epoch milliseconds of the hour anchor `base_date.replace(hour=h)`. -/
def anchorMs (y m d h : Int) : Int :=
  (daysFromCivil y m d * 24 + h) * 3600000

/-- Epoch milliseconds of a full calendar datetime with millisecond part. -/
def msOfDateTime (y m d h mi s ms : Int) : Int :=
  ((daysFromCivil y m d * 24 + h) * 3600 + mi * 60 + s) * 1000 + ms

/-! ### Observable behaviour of `bi5_to_csv`

`bi5_to_csv` reads the compressed artifact and calls `lzma.decompress`.  The
LZMA library is an external collaborator, so its result is a parameter: either
the decompressed byte buffer or an `lzma.LZMAError`.  On the error the source
prints a message and executes a bare `return` — the output file at `csv_path`
is only opened (`open(csv_path, 'w')`) after decompression succeeded, in which
case it is truncated and receives the header row and the decoded rows. -/

/-- Result of the `lzma.decompress` call. -/
inductive DecompResult where
  | ok (data : List Nat)
  | lzmaError
deriving DecidableEq

/-- How control leaves `bi5_to_csv`: a normal return, or an exception
propagating to the caller. -/
inductive ConvertReturn where
  | normal
  | raised
deriving DecidableEq

/-- Observable effects of one `bi5_to_csv` call: how it returned, the content
of the file at `csv_path` afterwards (`none` = no file), and whether the
decompression-error message was printed. -/
structure ConvertResult where
  ret : ConvertReturn
  csvFile : Option (List Row)
  errorPrinted : Bool
deriving DecidableEq

/-- `bi5_to_csv`, abstracted over the decompression result and the prior
content of `csv_path`.  The CSV file content is modelled as its list of data
rows (the source also writes a fixed header line first, which carries no
information). -/
def bi5_to_csv (anchor : Int) (decomp : DecompResult) (priorCsv : Option (List Row)) :
    ConvertResult :=
  match decomp with
  | .lzmaError => { ret := .normal, csvFile := priorCsv, errorPrinted := true }
  | .ok data => { ret := .normal, csvFile := some (decodeTicks anchor data), errorPrinted := false }

/-! ## Sync engine (`downloader.py`, function `download_one_hour`)

The network is an external collaborator, so the HEAD and GET responses are
parameters.  The local filesystem state at the unit's artifact path is the
parameter `localFile` (`none` = file absent); the result records the outcome,
the successive observable contents of the artifact path (`states`, starting
with the initial content — `open(filepath, "wb")` first truncates the file,
then `f.write(new_data)` fills it), the bodies passed to file writes, and
whether a GET transfer was performed. -/

/-- The `requests.head` call: a response with status code and parsed
`Content-Length` header (`none` when the header is absent or unparsable,
which the source turns into the same fall-through), or a raised exception. -/
inductive HeadResult where
  | resp (status : Nat) (contentLength : Option Nat)
  | exn
deriving DecidableEq

/-- The `requests.get` call: a response with status code and body, or a
raised exception (connection failure / timeout). -/
inductive GetResult where
  | resp (status : Nat) (content : List Nat)
  | exn
deriving DecidableEq

/-- The return value of `download_one_hour` (the source returns strings;
each constructor is one of its five return statements, in source order). -/
inductive Outcome where
  | skippedSameSize
  | skippedSameSizeAfterGet
  | downloaded
  | noData (status : Nat)
  | errorDownloading
deriving DecidableEq

/-- Observable effects of one `download_one_hour` call. -/
structure SyncResult where
  outcome : Outcome
  states : List (Option (List Nat))
  writes : List (List Nat)
  getPerformed : Bool
deriving DecidableEq

/-- The HEAD-probe phase: the skip condition of lines 27–39 of
`downloader.py` — the file exists, is non-empty, the HEAD request did not
raise, returned status 200, carried a Content-Length, and that size equals
the local size. -/
def headSkips (localFile : Option (List Nat)) (head : HeadResult) : Bool :=
  match localFile with
  | none => false
  | some content =>
    if 0 < content.length then
      match head with
      | .resp status clen =>
        if status = 200 then
          match clen with
          | some serverSize => serverSize == content.length
          | none => false
        else false
      | .exn => false
    else false

/-- `download_one_hour`, abstracted over the local artifact content and the
two network calls.  Mirrors the source line by line: HEAD skip check, then
GET; on `status == 200 and content` compare sizes against an existing file,
else overwrite by `open(filepath, "wb")` (truncate) + `write`; non-success
status or empty body returns the "No data" message; a raised exception
returns the "Error downloading" message. -/
def download_one_hour (localFile : Option (List Nat)) (head : HeadResult)
    (get : GetResult) : SyncResult :=
  if headSkips localFile head then
    { outcome := .skippedSameSize, states := [localFile], writes := [], getPerformed := false }
  else
    match get with
    | .exn =>
      { outcome := .errorDownloading, states := [localFile], writes := [], getPerformed := true }
    | .resp status content =>
      if status = 200 ∧ content ≠ [] then
        match localFile with
        | some old =>
          if content.length = old.length then
            { outcome := .skippedSameSizeAfterGet, states := [localFile], writes := [],
              getPerformed := true }
          else
            { outcome := .downloaded, states := [localFile, some [], some content],
              writes := [content], getPerformed := true }
        | none =>
          { outcome := .downloaded, states := [localFile, some [], some content],
            writes := [content], getPerformed := true }
      else
        { outcome := .noData status, states := [localFile], writes := [], getPerformed := true }

/-! ## Scheduler (`downloader.py`, function `download_dukascopy_ticks`)

The task list built by the `while current_date <= end_date` loop: 24 tasks
per day, hours 0–23 in order, days ascending.  Dates are modelled by their
day ordinal (`Nat`), since `datetime.date` comparison and
`+ timedelta(days=1)` are exactly order and successor on day ordinals. -/

/-- The inner `for hour in range(24)` loop: the 24 tasks of one day. -/
def hourTasks (day : Nat) : List (Nat × Nat) :=
  (List.range 24).map (fun h => (day, h))

/-- Helper: the task list built from day `s` for `n` further days. -/
def enumFrom : Nat → Nat → List (Nat × Nat)
  | _, 0 => []
  | s, n + 1 => hourTasks s ++ enumFrom (s + 1) n

/-- The full task list of `download_dukascopy_ticks`:
`while current_date <= end_date: for hour in range(24): tasks.append(...)`. -/
def download_dukascopy_tasks (startDay endDay : Nat) : List (Nat × Nat) :=
  if _h : startDay ≤ endDay then
    hourTasks startDay ++ download_dukascopy_tasks (startDay + 1) endDay
  else []
termination_by endDay + 1 - startDay
decreasing_by omega

/-! ## Lemmas about the decoder -/

theorem parseRecords_cons20 (data : List Nat) (h : 20 ≤ data.length) :
    parseRecords data = recordAt data 0 :: parseRecords (data.drop 20) := by
  rcases data with _ | ⟨b0, _ | ⟨b1, _ | ⟨b2, _ | ⟨b3, _ | ⟨b4, _ | ⟨b5, _ | ⟨b6, _ | ⟨b7,
    _ | ⟨b8, _ | ⟨b9, _ | ⟨b10, _ | ⟨b11, _ | ⟨b12, _ | ⟨b13, _ | ⟨b14, _ | ⟨b15, _ | ⟨b16,
    _ | ⟨b17, _ | ⟨b18, _ | ⟨b19, rest⟩⟩⟩⟩⟩⟩⟩⟩⟩⟩⟩⟩⟩⟩⟩⟩⟩⟩⟩⟩
  all_goals try rfl
  all_goals simp only [List.length_cons, List.length_nil] at h
  all_goals omega

theorem parseRecords_short (data : List Nat) (h : data.length < 20) :
    parseRecords data = [] := by
  rcases data with _ | ⟨b0, _ | ⟨b1, _ | ⟨b2, _ | ⟨b3, _ | ⟨b4, _ | ⟨b5, _ | ⟨b6, _ | ⟨b7,
    _ | ⟨b8, _ | ⟨b9, _ | ⟨b10, _ | ⟨b11, _ | ⟨b12, _ | ⟨b13, _ | ⟨b14, _ | ⟨b15, _ | ⟨b16,
    _ | ⟨b17, _ | ⟨b18, _ | ⟨b19, rest⟩⟩⟩⟩⟩⟩⟩⟩⟩⟩⟩⟩⟩⟩⟩⟩⟩⟩⟩⟩
  all_goals try rfl
  all_goals simp only [List.length_cons, List.length_nil] at h
  all_goals omega

theorem byteAt_drop (data : List Nat) (n i : Nat) :
    byteAt (data.drop n) i = byteAt data (n + i) := by
  induction data generalizing n with
  | nil => simp [byteAt]
  | cons a tl ih =>
    cases n with
    | zero => simp
    | succ n =>
      have h1 : n + 1 + i = (n + i) + 1 := by omega
      simp only [List.drop_succ_cons, h1, byteAt, List.getD_cons_succ]
      exact ih n

theorem byteAt_take (data : List Nat) (m i : Nat) (h : i < m) :
    byteAt (data.take m) i = byteAt data i := by
  induction data generalizing m i with
  | nil => simp
  | cons a tl ih =>
    cases m with
    | zero => omega
    | succ m =>
      cases i with
      | zero => rfl
      | succ i => simpa [byteAt] using ih m i (by omega)

theorem u32At_drop (data : List Nat) (n i : Nat) :
    u32At (data.drop n) i = u32At data (n + i) := by
  simp [u32At, byteAt_drop, Nat.add_assoc]

theorem u32At_take (data : List Nat) (m i : Nat) (h : i + 4 ≤ m) :
    u32At (data.take m) i = u32At data i := by
  unfold u32At
  rw [byteAt_take data m i (by omega), byteAt_take data m (i + 1) (by omega),
    byteAt_take data m (i + 2) (by omega), byteAt_take data m (i + 3) (by omega)]

theorem recordAt_drop (data : List Nat) (n i : Nat) :
    recordAt (data.drop n) i = recordAt data (n + i) := by
  simp [recordAt, u32At_drop, Nat.add_assoc]

theorem recordAt_take (data : List Nat) (m i : Nat) (h : i + 20 ≤ m) :
    recordAt (data.take m) i = recordAt data i := by
  unfold recordAt
  rw [u32At_take data m i (by omega), u32At_take data m (i + 4) (by omega),
    u32At_take data m (i + 8) (by omega), u32At_take data m (i + 12) (by omega),
    u32At_take data m (i + 16) (by omega)]

theorem parseRecords_length (data : List Nat) :
    (parseRecords data).length = data.length / 20 := by
  generalize hn : data.length = n
  induction n using Nat.strong_induction_on generalizing data with
  | _ n ih =>
    by_cases h : 20 ≤ n
    · subst hn
      rw [parseRecords_cons20 data h]
      have hd : (data.drop 20).length = data.length - 20 := by simp
      have hrec := ih (data.length - 20) (by omega) (data.drop 20) hd
      simp only [List.length_cons, hrec]
      omega
    · rw [parseRecords_short data (by omega)]
      simp only [List.length_nil]
      omega

theorem parseRecords_getElem (data : List Nat) (i : Nat) (h : 20 * i + 20 ≤ data.length) :
    (parseRecords data)[i]? = some (recordAt data (20 * i)) := by
  induction i generalizing data with
  | zero =>
    rw [parseRecords_cons20 data (by omega)]
    simp
  | succ i ih =>
    rw [parseRecords_cons20 data (by omega)]
    have hd : 20 * i + 20 ≤ (data.drop 20).length := by simp; omega
    have : 20 + 20 * i = 20 * (i + 1) := by ring
    simp only [List.getElem?_cons_succ, ih (data.drop 20) hd, recordAt_drop, this]

theorem parseRecords_take (N : Nat) (data : List Nat) (h : data.length < 20 * N + 20) :
    parseRecords (data.take (20 * N)) = parseRecords data := by
  induction N generalizing data with
  | zero =>
    rw [Nat.mul_zero, List.take_zero, parseRecords_short data (by omega)]
    rfl
  | succ N ih =>
    by_cases h20 : 20 ≤ data.length
    · have hm : 20 ≤ 20 * (N + 1) := by omega
      have hlen : 20 ≤ (data.take (20 * (N + 1))).length := by
        simp only [List.length_take]
        omega
      rw [parseRecords_cons20 _ hlen, parseRecords_cons20 data h20,
        recordAt_take data (20 * (N + 1)) 0 (by omega)]
      congr 1
      rw [List.drop_take]
      have hsub : 20 * (N + 1) - 20 = 20 * N := by omega
      rw [hsub]
      exact ih (data.drop 20) (by simp; omega)
    · rw [List.take_of_length_le (by omega)]

/-! ## Lemmas about the scheduler task list -/

theorem mem_hourTasks (day d h : Nat) :
    (d, h) ∈ hourTasks day ↔ d = day ∧ h < 24 := by
  simp only [hourTasks, List.mem_map, List.mem_range]
  constructor
  · rintro ⟨a, ha, heq⟩
    injection heq with hd ha2
    exact ⟨hd.symm, by omega⟩
  · rintro ⟨hd, hh⟩
    exact ⟨h, hh, by rw [hd]⟩

theorem download_dukascopy_tasks_eq_enumFrom (s e : Nat) :
    download_dukascopy_tasks s e = enumFrom s (e + 1 - s) := by
  generalize hn : e + 1 - s = n
  induction n generalizing s with
  | zero =>
    unfold download_dukascopy_tasks
    have hse : ¬ s ≤ e := by omega
    simp [hse, enumFrom]
  | succ n ih =>
    unfold download_dukascopy_tasks
    have hse : s ≤ e := by omega
    simp only [hse, dif_pos, enumFrom]
    congr 1
    exact ih (s + 1) (by omega)

theorem mem_enumFrom (s n d h : Nat) :
    (d, h) ∈ enumFrom s n ↔ s ≤ d ∧ d < s + n ∧ h < 24 := by
  induction n generalizing s with
  | zero => simp [enumFrom]; omega
  | succ n ih =>
    simp only [enumFrom, List.mem_append, mem_hourTasks, ih (s + 1)]
    omega

theorem enumFrom_length (s n : Nat) : (enumFrom s n).length = n * 24 := by
  induction n generalizing s with
  | zero => rfl
  | succ n ih =>
    simp [enumFrom, hourTasks, ih (s + 1)]
    omega

/-- Date-major, hour-minor strict ascending order on tasks. -/
def taskLt (a b : Nat × Nat) : Prop :=
  a.1 < b.1 ∨ (a.1 = b.1 ∧ a.2 < b.2)

theorem hourTasks_pairwise (day : Nat) : (hourTasks day).Pairwise taskLt := by
  unfold hourTasks
  rw [List.pairwise_map]
  exact (List.pairwise_lt_range 24).imp (fun hab => Or.inr ⟨rfl, hab⟩)

theorem enumFrom_pairwise (s n : Nat) : (enumFrom s n).Pairwise taskLt := by
  induction n generalizing s with
  | zero => exact List.Pairwise.nil
  | succ n ih =>
    rw [enumFrom, List.pairwise_append]
    refine ⟨hourTasks_pairwise s, ih (s + 1), ?_⟩
    intro a ha b hb
    obtain ⟨d, h⟩ := a
    obtain ⟨d2, h2⟩ := b
    rw [mem_hourTasks] at ha
    rw [mem_enumFrom] at hb
    exact Or.inl (by omega)

theorem enumFrom_nodup (s n : Nat) : (enumFrom s n).Nodup :=
  (enumFrom_pairwise s n).imp (fun hab heq => by
    rw [heq] at hab
    rcases hab with hlt | ⟨_, hlt⟩ <;> omega)

/-! ## Lemmas about the sync engine -/

/-- Whether the GET transfer failed: a raised exception, or a response that is
not (`status == 200` and non-empty body) — exactly the complement of the
source's success test `get_resp.status_code == 200 and get_resp.content`. -/
def GetResult.failed : GetResult → Prop
  | .exn => True
  | .resp status content => ¬(status = 200 ∧ content ≠ [])

theorem byteAt_lt (data : List Nat) (hbyte : ∀ b ∈ data, b < 256) (k : Nat)
    (hk : k < data.length) : byteAt data k < 256 := by
  have hmem : data.getD k 0 ∈ data := by
    rw [List.getD_eq_getElem data 0 hk]
    exact List.getElem_mem hk
  exact hbyte _ hmem

/-- Case analysis of one `download_one_hour` call: either no write happens and
the artifact path's content never changes, or exactly one non-empty body is
written, through an in-place truncate (`open(filepath, "wb")`) followed by the
write. -/
theorem download_one_hour_writes_spec (localFile : Option (List Nat)) (head : HeadResult)
    (get : GetResult) :
    ((download_one_hour localFile head get).writes = [] ∧
      (download_one_hour localFile head get).states = [localFile]) ∨
    (∃ b, b ≠ [] ∧ (download_one_hour localFile head get).writes = [b] ∧
      (download_one_hour localFile head get).states = [localFile, some [], some b]) := by
  cases hhs : headSkips localFile head
  · cases get with
    | exn => left; exact ⟨by simp [download_one_hour, hhs], by simp [download_one_hour, hhs]⟩
    | resp status content =>
      by_cases hc : status = 200 ∧ content ≠ []
      · obtain ⟨h200, hbody⟩ := hc
        cases localFile with
        | none =>
          right
          exact ⟨content, hbody, by simp [download_one_hour, hhs, h200, hbody],
            by simp [download_one_hour, hhs, h200, hbody]⟩
        | some old =>
          by_cases hlen : content.length = old.length
          · left
            exact ⟨by simp [download_one_hour, hhs, h200, hbody, hlen],
              by simp [download_one_hour, hhs, h200, hbody, hlen]⟩
          · right
            exact ⟨content, hbody, by simp [download_one_hour, hhs, h200, hbody, hlen],
              by simp [download_one_hour, hhs, h200, hbody, hlen]⟩
      · left
        exact ⟨by simp [download_one_hour, hhs, hc], by simp [download_one_hour, hhs, hc]⟩
  · left
    exact ⟨by simp [download_one_hour, hhs], by simp [download_one_hour, hhs]⟩

/-! ## Claim theorems -/

/-- C1, counterexample: the claim says the first 4 bytes of a record are read
as an *unsigned* big-endian 32-bit offset, so that a record whose first byte
has the top bit set still yields a non-negative offset.  The source unpacks
with `">iiiii"` — *signed* — so for the record starting with byte `0x80` the
decoded timestamp is `anchor - 2^31`, not `anchor + 2^31`: with anchor 0 the
single decoded row carries timestamp `readBE4 128 0 0 0 - 2^32 = -2147483648`,
not `readBE4 128 0 0 0 = 2147483648` as the claim requires. -/
theorem C1_counterexample :
    (decodeTicks 0 (128 :: List.replicate 19 0)).map (fun row => row.timestamp_ms) =
      [(readBE4 128 0 0 0 : Int) - 2 ^ 32] ∧
    (decodeTicks 0 (128 :: List.replicate 19 0)).map (fun row => row.timestamp_ms) ≠
      [(readBE4 128 0 0 0 : Int)] := by
  constructor
  · simp [decodeTicks, parseRecords, recordToRow, toSigned32, readBE4, List.replicate]
  · simp [decodeTicks, parseRecords, recordToRow, toSigned32, readBE4, List.replicate]

/-- C1 (amended): for every complete 20-byte record, the decoder interprets
all five fields — including the first, `offset_ms` — as *signed* big-endian
32-bit integers, and the row's timestamp is the hour anchor plus that signed
offset in milliseconds; a record whose first byte has the top bit set yields a
*negative* offset (the unsigned value minus `2^32`), while a first byte below
128 yields the plain non-negative value. -/
theorem C1_signed_offset (anchor : Int) (data : List Nat) (i : Nat)
    (h : 20 * i + 20 ≤ data.length) (hbyte : ∀ b ∈ data, b < 256) :
    (decodeTicks anchor data)[i]? = some (recordToRow anchor (recordAt data (20 * i))) ∧
    (recordToRow anchor (recordAt data (20 * i))).timestamp_ms =
      anchor + toSigned32 (u32At data (20 * i)) ∧
    (byteAt data (20 * i) < 128 →
      toSigned32 (u32At data (20 * i)) = (u32At data (20 * i) : Int)) ∧
    (128 ≤ byteAt data (20 * i) → toSigned32 (u32At data (20 * i)) < 0) := by
  have hb0 : byteAt data (20 * i) < 256 := byteAt_lt data hbyte _ (by omega)
  have hb1 : byteAt data (20 * i + 1) < 256 := byteAt_lt data hbyte _ (by omega)
  have hb2 : byteAt data (20 * i + 2) < 256 := byteAt_lt data hbyte _ (by omega)
  have hb3 : byteAt data (20 * i + 3) < 256 := byteAt_lt data hbyte _ (by omega)
  have hval : u32At data (20 * i) =
      ((byteAt data (20 * i) * 256 + byteAt data (20 * i + 1)) * 256 +
        byteAt data (20 * i + 2)) * 256 + byteAt data (20 * i + 3) := rfl
  refine ⟨?_, rfl, ?_, ?_⟩
  · simp only [decodeTicks, List.getElem?_map, parseRecords_getElem data i h]
    rfl
  · intro hsmall
    have hlt : u32At data (20 * i) < 2 ^ 31 := by rw [hval]; omega
    unfold toSigned32
    rw [if_pos hlt]
  · intro hbig
    have hge : ¬ u32At data (20 * i) < 2 ^ 31 := by rw [hval]; omega
    have hub : u32At data (20 * i) < 2 ^ 32 := by rw [hval]; omega
    simp only [toSigned32, hge, if_false]
    omega

/-- C1, witness for the amended theorem at a concrete record whose first byte
is `0x80`. -/
theorem C1_signed_offset_witness :
    (decodeTicks 0 (128 :: List.replicate 19 0))[0]? =
      some (recordToRow 0 (recordAt (128 :: List.replicate 19 0) 0)) ∧
    toSigned32 (u32At (128 :: List.replicate 19 0) 0) < 0 := by
  have h := C1_signed_offset 0 (128 :: List.replicate 19 0) 0 (by simp) (by decide)
  exact ⟨by simpa using h.1, h.2.2.2 (by decide)⟩

/-- C2 (confirmed): a decompressed buffer of length `20 * N + r` with
`r < 20` decodes to exactly `N` rows, the `i`-th row coming from the `i`-th
20-byte chunk (file order, no re-sorting), and the trailing `r` bytes are
silently discarded: the decode result equals that of the truncated buffer.
The decoder is a total function, so no error is possible on a short tail. -/
theorem C2_chunking (anchor : Int) (N r : Nat) (data : List Nat)
    (hlen : data.length = 20 * N + r) (hr : r < 20) :
    (decodeTicks anchor data).length = N ∧
    (∀ i, i < N → (decodeTicks anchor data)[i]? =
      some (recordToRow anchor (recordAt data (20 * i)))) ∧
    decodeTicks anchor data = decodeTicks anchor (data.take (20 * N)) := by
  refine ⟨?_, ?_, ?_⟩
  · simp only [decodeTicks, List.length_map, parseRecords_length, hlen]
    omega
  · intro i hi
    simp only [decodeTicks, List.getElem?_map, parseRecords_getElem data i (by omega)]
    rfl
  · simp only [decodeTicks]
    rw [parseRecords_take N data (by omega)]

/-- C2, witness: a 47-byte buffer (`20 * 2 + 7`) yields exactly 2 rows. -/
theorem C2_chunking_witness :
    (decodeTicks 0 (List.replicate 47 3)).length = 2 :=
  (C2_chunking 0 2 7 (List.replicate 47 3) (by simp) (by omega)).1

/-- C3 (confirmed): every decoded row's ask is `ask_raw / 100000`, its bid is
`bid_raw / 100000` (exact rational division by the fixed-point scale `10^5`),
and the two volumes pass through unchanged; and the concrete record
{offset_ms=1500, ask_raw=109234, bid_raw=109210, ask_volume=3, bid_volume=5}
with hour anchor 2024-11-03T05:00:00.000 decodes to the row with timestamp
2024-11-03T05:00:01.500, ask 1.09234, bid 1.09210, volumes 3 and 5. -/
theorem C3_price_scaling (anchor : Int) (data : List Nat) (i : Nat)
    (h : 20 * i + 20 ≤ data.length) :
    (decodeTicks anchor data)[i]? = some (recordToRow anchor (recordAt data (20 * i))) ∧
    (recordToRow anchor (recordAt data (20 * i))).ask =
      ((recordAt data (20 * i)).ask_raw : ℚ) / 100000 ∧
    (recordToRow anchor (recordAt data (20 * i))).bid =
      ((recordAt data (20 * i)).bid_raw : ℚ) / 100000 ∧
    (recordToRow anchor (recordAt data (20 * i))).ask_volume = (recordAt data (20 * i)).ask_vol ∧
    (recordToRow anchor (recordAt data (20 * i))).bid_volume = (recordAt data (20 * i)).bid_vol ∧
    decodeTicks (anchorMs 2024 11 3 5)
      [0, 0, 5, 220, 0, 1, 170, 178, 0, 1, 170, 154, 0, 0, 0, 3, 0, 0, 0, 5] =
      [{ timestamp_ms := msOfDateTime 2024 11 3 5 0 1 500,
         ask := 109234 / 100000, bid := 109210 / 100000,
         ask_volume := 3, bid_volume := 5 }] := by
  refine ⟨?_, rfl, rfl, rfl, rfl, ?_⟩
  · simp only [decodeTicks, List.getElem?_map, parseRecords_getElem data i h]
    rfl
  · norm_num [decodeTicks, parseRecords, recordToRow, toSigned32, readBE4,
      anchorMs, msOfDateTime, daysFromCivil, Row.mk.injEq]

/-- C3, witness: the concrete scenario itself, extracted from the theorem at
a concrete instantiation of the generic bounds. -/
theorem C3_price_scaling_witness :
    decodeTicks (anchorMs 2024 11 3 5)
      [0, 0, 5, 220, 0, 1, 170, 178, 0, 1, 170, 154, 0, 0, 0, 3, 0, 0, 0, 5] =
      [{ timestamp_ms := msOfDateTime 2024 11 3 5 0 1 500,
         ask := 109234 / 100000, bid := 109210 / 100000,
         ask_volume := 3, bid_volume := 5 }] :=
  (C3_price_scaling 0 (List.replicate 20 0) 0 (by simp)).2.2.2.2.2

/-- C4, counterexample: the claim says a decompression failure is surfaced to
the caller as a DecodeError/DecompressionError rather than handled internally.
The source wraps `lzma.decompress` in `try/except lzma.LZMAError`, prints a
message and returns normally, so the call does *not* raise to its caller
(though it indeed produces no rows and touches no output file). -/
theorem C4_counterexample :
    (bi5_to_csv 0 .lzmaError none).ret = .normal ∧
    (bi5_to_csv 0 .lzmaError none).ret ≠ .raised ∧
    (bi5_to_csv 0 .lzmaError none).csvFile = none ∧
    (bi5_to_csv 0 .lzmaError none).errorPrinted = true := by
  exact ⟨rfl, by decide, rfl, rfl⟩

/-- C4 (amended): when decompression fails, `bi5_to_csv` catches the error
internally, prints a diagnostic, and returns normally to its caller; zero rows
are produced and the output CSV path is left exactly as it was. -/
theorem C4_decomp_error_handled_internally (anchor : Int) (priorCsv : Option (List Row)) :
    bi5_to_csv anchor .lzmaError priorCsv =
      { ret := .normal, csvFile := priorCsv, errorPrinted := true } := rfl

/-- C10 (confirmed): on decompression failure the output CSV path is neither
created nor modified — the source only opens `csv_path` for writing after
`lzma.decompress` has succeeded, so a pre-existing file at the output path is
unchanged. -/
theorem C10_no_output_on_decomp_failure (anchor : Int) (priorCsv : Option (List Row)) :
    (bi5_to_csv anchor .lzmaError priorCsv).csvFile = priorCsv := rfl

/-- C5 (confirmed): when a non-empty local artifact exists and the HEAD probe
returns status 200 with a Content-Length equal to the local size, `sync`
returns Skipped("size match") with no GET transfer and no filesystem write:
the artifact path's content trace is just its initial state. -/
theorem C5_head_skip (content : List Nat) (clen : Option Nat) (get : GetResult)
    (hne : content ≠ []) (hsize : clen = some content.length) :
    download_one_hour (some content) (.resp 200 clen) get =
      { outcome := .skippedSameSize, states := [some content], writes := [],
        getPerformed := false } := by
  subst hsize
  have hh : headSkips (some content) (HeadResult.resp 200 (some content.length)) = true := by
    simp [headSkips, List.length_pos, hne]
  simp [download_one_hour, hh]

/-- C5, witness: local artifact `[1]` (size 1), HEAD reports size 1; the GET
collaborator would raise if called, and indeed no transfer happens. -/
theorem C5_head_skip_witness :
    download_one_hour (some [1]) (.resp 200 (some 1)) .exn =
      { outcome := .skippedSameSize, states := [some [1]], writes := [],
        getPerformed := false } :=
  C5_head_skip [1] (some 1) .exn (by decide) rfl

/-- C6 (confirmed): whenever the GET transfer is performed and fails (raised
exception, non-200 status, or empty body), `sync` returns a failure outcome
("Error downloading" or "No data"), performs no write, and the artifact path's
content trace is just its initial state — any pre-existing artifact is
byte-for-byte unchanged. -/
theorem C6_transfer_failure (localFile : Option (List Nat)) (head : HeadResult)
    (get : GetResult)
    (hget : (download_one_hour localFile head get).getPerformed = true)
    (hfail : get.failed) :
    ((download_one_hour localFile head get).outcome = .errorDownloading ∨
      ∃ s, (download_one_hour localFile head get).outcome = .noData s) ∧
    (download_one_hour localFile head get).states = [localFile] ∧
    (download_one_hour localFile head get).writes = [] := by
  cases hhs : headSkips localFile head
  · cases get with
    | exn =>
      exact ⟨Or.inl (by simp [download_one_hour, hhs]),
        by simp [download_one_hour, hhs], by simp [download_one_hour, hhs]⟩
    | resp status content =>
      simp only [GetResult.failed] at hfail
      exact ⟨Or.inr ⟨status, by simp [download_one_hour, hhs, hfail]⟩,
        by simp [download_one_hour, hhs, hfail], by simp [download_one_hour, hhs, hfail]⟩
  · rw [download_one_hour.eq_def, if_pos hhs] at hget
    simp at hget

/-- C6, witness: existing local artifact `[7]`, HEAD raises, GET returns
status 404 with empty body; the outcome is a failure and the artifact trace is
unchanged. -/
theorem C6_transfer_failure_witness :
    (download_one_hour (some [7]) .exn (.resp 404 [])).states = [some [7]] ∧
    (download_one_hour (some [7]) .exn (.resp 404 [])).writes = [] := by
  have h := C6_transfer_failure (some [7]) .exn (.resp 404 []) (by decide)
    (by simp [GetResult.failed])
  exact h.2

/-- C7, counterexample: the claim says every artifact write is atomic (write
to a temporary location and rename, or equivalent), so no later reader can
observe a truncated artifact.  The source writes with `open(filepath, "wb")`
followed by `f.write(new_data)` directly at the destination path: between the
truncating open and the write, the path observably holds an empty file —
a state that is neither the initial content (absent) nor the final body. -/
theorem C7_counterexample :
    ¬ (∀ s ∈ (download_one_hour none .exn (.resp 200 [1, 2, 3])).states,
        s = none ∨ s = some [1, 2, 3]) := by decide

/-- C7 (amended): `download_one_hour` never uses a temporary file plus rename;
on every call it either performs no write (and the destination's observable
content never changes), or it overwrites the destination in place — truncating
it to an observable empty file and then writing the non-empty body — so a
concurrent later reader can observe a truncated artifact. -/
theorem C7_in_place_write (localFile : Option (List Nat)) (head : HeadResult)
    (get : GetResult) :
    ((download_one_hour localFile head get).writes = [] ∧
      (download_one_hour localFile head get).states = [localFile]) ∨
    (∃ b, b ≠ [] ∧ (download_one_hour localFile head get).writes = [b] ∧
      (download_one_hour localFile head get).states = [localFile, some [], some b]) :=
  download_one_hour_writes_spec localFile head get

/-- C8 (confirmed): for `startDay ≤ endDay` the scheduler's task list contains
exactly the pairs (day, hour) with day in the inclusive range and hour below
24, is strictly sorted date-major then hour-minor (hence deterministic and
duplicate-free), and has `(endDay - startDay + 1) * 24` entries — 48 for a
2-day range. -/
theorem C8_task_enumeration (s e : Nat) (h : s ≤ e) :
    (∀ d hr : Nat, (d, hr) ∈ download_dukascopy_tasks s e ↔ s ≤ d ∧ d ≤ e ∧ hr < 24) ∧
    (download_dukascopy_tasks s e).Pairwise taskLt ∧
    (download_dukascopy_tasks s e).Nodup ∧
    (download_dukascopy_tasks s e).length = (e - s + 1) * 24 := by
  rw [download_dukascopy_tasks_eq_enumFrom]
  refine ⟨?_, enumFrom_pairwise s (e + 1 - s), enumFrom_nodup s (e + 1 - s), ?_⟩
  · intro d hr
    rw [mem_enumFrom]
    omega
  · rw [enumFrom_length]
    omega

/-- C8, witness: a 2-day range (days 0 and 1) yields exactly 48 distinct
tasks. -/
theorem C8_task_enumeration_witness :
    (download_dukascopy_tasks 0 1).length = 48 ∧ (download_dukascopy_tasks 0 1).Nodup := by
  have h := C8_task_enumeration 0 1 (by omega)
  exact ⟨by simpa using h.2.2.2, h.2.2.1⟩

/-- C9 (confirmed): every body passed to a filesystem write by
`download_one_hour` is non-empty — the source only writes when
`get_resp.status_code == 200 and get_resp.content`, i.e. when the transferred
body has at least one byte. -/
theorem C9_nonempty_writes (localFile : Option (List Nat)) (head : HeadResult)
    (get : GetResult) (b : List Nat)
    (hb : b ∈ (download_one_hour localFile head get).writes) :
    1 ≤ b.length := by
  rcases download_one_hour_writes_spec localFile head get with ⟨hw, _⟩ | ⟨c, hc, hw, _⟩
  · rw [hw] at hb
    simp at hb
  · rw [hw] at hb
    simp only [List.mem_singleton] at hb
    subst hb
    exact List.length_pos.mpr hc

/-- C9, witness: with no local file and a successful GET of body `[5]`, the
single write body `[5]` has length at least 1. -/
theorem C9_nonempty_writes_witness : 1 ≤ ([5] : List Nat).length :=
  C9_nonempty_writes none .exn (.resp 200 [5]) [5] (by decide)

end Dukascopy
